import Mathlib

/-!
Verification development for the semverbot repository.

The development shallowly embeds the two source files:

* `src/helpers/BranchHelper.js` — the branch and version inference helpers
  (`checkCleanliness`, `checkBranchInConfig`, `getLastTagVersion`,
  `getCommitSubjectVersion`, `getLastMergedPrefix`).
* the JSON file updater (`updateFiles` with its key validation, the per key
  read, the one argument `set` call and the final `save`).

External command output is passed in as explicit arguments: each helper in the
source receives the pair produced by `until(ShellHelper.exec(...))`, an
optional list of captured stdout lines plus an optional error.  Per the spec
(section 2 and 6), the shell executor yields the captured stdout lines or an
error, and an empty capture is a falsy value; we model the pair as
`Option (List String)` together with `Option String`, where `none` output is
the falsy empty capture.

The reporter (`LogHelper`) is modelled from the spec (section 7): fatal
`ExceptionError` (message, process terminates), `SoftExit` (message plus
reason, non error termination), and informational lines.  Uncontrolled
JavaScript runtime failures (such as reading a property of `undefined`) are a
separate outcome, since they are not the reporter path.  Styling (chalk) and
the optional cause argument of `throwException` are presentation details and
are dropped from the modelled messages.
-/

/-- Outcome of one source operation: a returned value, a fatal
`ExceptionError` raised through the reporter, a `SoftExit`, or an uncontrolled
JavaScript runtime `TypeError`. -/
inductive CallOutcome (α : Type) where
  | ok (value : α)
  | exception (message : String)
  | softExit (message : String) (reason : String)
  | typeError
deriving DecidableEq, Repr

/-- True exactly on the fatal reporter path. -/
def CallOutcome.isException {α : Type} : CallOutcome α → Bool
  | .exception _ => true
  | _ => false

/-! ### JavaScript string primitives

The source manipulates strings through `split`, `trim`, template literals and
the semver routines.  We model the character level operations structurally
over `String.toList` so that every definition evaluates inside the kernel. -/

/-- Helper for `jsSplit`: walk the characters, cutting at the separator. -/
def splitAux (sep : Char) : List Char → List Char → List String
  | [], acc => [String.mk acc.reverse]
  | c :: rest, acc =>
      if c = sep then String.mk acc.reverse :: splitAux sep rest []
      else splitAux sep rest (c :: acc)

/-- JavaScript `String.prototype.split` with a single character separator:
`"a/b".split("/") = ["a","b"]`, `"".split("/") = [""]`. -/
def jsSplit (sep : Char) (s : String) : List String :=
  splitAux sep s.toList []

/-- ASCII whitespace, the relevant fragment of what `trim` removes. -/
def isWs (c : Char) : Bool :=
  c = ' ' || c = '\t' || c = '\n' || c = '\r'

/-- JavaScript `String.prototype.trim` (restricted to ASCII whitespace). -/
def trimChars (s : String) : String :=
  String.mk (((s.toList.dropWhile isWs).reverse.dropWhile isWs).reverse)

/-- Decimal digit as a character. -/
def digitChar (n : Nat) : Char := Char.ofNat (48 + n)

/-- Decimal digits of a natural number, with fuel for structural recursion. -/
def natToStrAux : Nat → Nat → List Char
  | 0, _ => []
  | fuel + 1, n =>
      if n < 10 then [digitChar n]
      else natToStrAux fuel (n / 10) ++ [digitChar (n % 10)]

/-- Decimal rendering of a natural number. -/
def natToStr (n : Nat) : String := String.mk (natToStrAux (n + 1) n)

/-- Join strings with a single character separator. -/
def joinChar (c : Char) : List String → String
  | [] => ""
  | [s] => s
  | s :: rest => s ++ String.mk [c] ++ joinChar c rest

/-- Numeric value of a digit list (the list is validated before use). -/
def digitsToNat (l : List Char) : Nat :=
  l.foldl (fun n c => 10 * n + (c.toNat - 48)) 0

/-! ### The semver dependency

Modelled from the spec: the repository depends on an external semantic
version normalization routine (`semver.clean` / `semver.valid`) with standard
semver parsing rules (spec section 6).  The model follows the published
grammar: `major.minor.patch` with numeric identifiers without leading zeros,
an optional dash separated prerelease of dot separated alphanumeric or
hyphen identifiers (numeric ones without leading zeros), an optional plus
separated build part, and one optional leading letter v accepted by the
strict parser.  `clean` first trims the input and strips every leading `=` or
`v`; both `clean` and `valid` return the canonical rendering (which omits the
build part) or null. -/

structure SemVer where
  major : Nat
  minor : Nat
  patch : Nat
  prerelease : List String
deriving DecidableEq, Repr

/-- A semver numeric identifier: digits only, no leading zero. -/
def isNumericIdent (s : String) : Bool :=
  let l := s.toList
  !l.isEmpty && l.all Char.isDigit && (s = "0" || l.headD '0' ≠ '0')

/-- Characters allowed in prerelease and build identifiers. -/
def isIdentChar (c : Char) : Bool := c.isDigit || c.isAlpha || c = '-'

/-- A semver prerelease identifier. -/
def isPrereleaseIdent (s : String) : Bool :=
  let l := s.toList
  !l.isEmpty && l.all isIdentChar && (!(l.all Char.isDigit) || isNumericIdent s)

/-- A semver build identifier. -/
def isBuildIdent (s : String) : Bool :=
  let l := s.toList
  !l.isEmpty && l.all isIdentChar

/-- Parse a numeric identifier. -/
def parseNumericIdent (s : String) : Option Nat :=
  if isNumericIdent s then some (digitsToNat s.toList) else none

/-- Parse `major.minor.patch` followed by an optional `-prerelease` part.
The first dash separates the core from the prerelease, which may itself
contain dashes. -/
def semverParseCore (s : String) : Option SemVer :=
  match jsSplit '-' s with
  | core :: preParts =>
      match jsSplit '.' core with
      | [ma, mi, pa] =>
          match parseNumericIdent ma, parseNumericIdent mi, parseNumericIdent pa with
          | some a, some b, some c =>
              match preParts with
              | [] => some ⟨a, b, c, []⟩
              | _ =>
                  let ids := jsSplit '.' (joinChar '-' preParts)
                  if ids.all isPrereleaseIdent then some ⟨a, b, c, ids⟩ else none
          | _, _, _ => none
      | _ => none
  | [] => none

/-- Strict semver parse: one optional leading letter v, then the version
core, then an optional build part after a plus sign. -/
def semverParse (input : String) : Option SemVer :=
  let s := if input.toList.headD ' ' = 'v' then String.mk (input.toList.drop 1) else input
  match jsSplit '+' s with
  | [versionPart] => semverParseCore versionPart
  | [versionPart, buildPart] =>
      if (jsSplit '.' buildPart).all isBuildIdent then semverParseCore versionPart
      else none
  | _ => none

/-- Canonical rendering of a parsed version (build metadata is dropped). -/
def SemVer.version (sv : SemVer) : String :=
  natToStr sv.major ++ "." ++ natToStr sv.minor ++ "." ++ natToStr sv.patch ++
    (match sv.prerelease with
     | [] => ""
     | pre => "-" ++ joinChar '.' pre)

/-- `semver.clean`: trim, strip leading `=` and `v` characters, parse, and
render canonically; null when the remainder is not a valid version. -/
def semverClean (s : String) : Option String :=
  let t := trimChars s
  let t2 := String.mk (t.toList.dropWhile (fun c => c = '=' || c = 'v'))
  (semverParse t2).map SemVer.version

/-- `semver.valid` applied to a possibly null argument: null input gives
null, otherwise parse and render; a string already produced by `clean`
validates. -/
def semverValid : Option String → Option String
  | none => none
  | some s => (semverParse s).map SemVer.version

/-! ### BranchHelper operations

Each operation receives the `[lines, err]` pair produced by
`until(ShellHelper.exec(command))` for its git command. -/

/-- `checkCleanliness`: probes `git diff --quiet || echo "dirty"`;  any
captured output means a dirty tree. -/
def checkCleanliness (dirty : Option (List String)) (err : Option String) :
    CallOutcome Bool :=
  match err with
  | some _ => .exception "Could not check directory cleanliness"
  | none =>
      match dirty with
      | some _ =>
          .exception "Directory is not clean. You must commit or discard your changes first."
      | none => .ok true

/-- `checkBranchInConfig`: the already resolved current branch name is
checked against the configured allow list; membership returns true, anything
else takes the reporter soft exit. -/
def checkBranchInConfig (branches : List String) (currentBranchName : String) :
    CallOutcome Bool :=
  if branches.contains currentBranchName then .ok true
  else .softExit "Current branch is not included in config file" "Skipping..."

/-- `getLastTagVersion`: on captured output, `semver.clean` of its first
line; on an empty capture the command failed (no tag) and the reporter
throws.  With a truthy but empty array the source would read
`tagLines[0] = undefined` and `semver.clean` would crash calling `trim` on
it; under the executor model that case never arises. -/
def getLastTagVersion (tagLines : Option (List String)) (err : Option String) :
    CallOutcome (Option String) :=
  match tagLines, err with
  | some (l :: _), _ => .ok (semverClean l)
  | some [], _ => .typeError
  | none, _ => .exception "Could not get last tag"

/-- One iteration of the `getCommitSubjectVersion` loop body: the candidate
is overwritten with the cleaned line when it validates and reset to null
otherwise. -/
def subjectStep (line : String) : Option String :=
  let lineVersion := semverClean line
  if (semverValid lineVersion).isSome then lineVersion else none

/-- `getCommitSubjectVersion`: reverses the subject lines and runs the
overwriting scan over them; the error path throws through the reporter. -/
def getCommitSubjectVersion (subjectLines : Option (List String))
    (err : Option String) : CallOutcome (Option String) :=
  match subjectLines, err with
  | some lines, _ =>
      .ok (lines.reverse.foldl (fun _ line => subjectStep line) none)
  | none, _ => .exception "Could not get last commit subject"

/-! ### getLastMergedPrefix

The inputs are the already resolved current branch name, the merged branch
names, the cleanliness of each branch (what `isBranchClean` would resolve
to), and each branch reflog push timestamp (what `getBranchPushTimestamp`
would resolve to). -/

/-- A candidate with its reflog push timestamp, as built inside
`getLastMergedPrefix`. -/
structure BranchCandidate where
  name : String
  date : Int
deriving DecidableEq, Repr

/-- Stable insertion of a candidate in front of the first entry with a
timestamp at least as large. -/
def insertByDate (c : BranchCandidate) : List BranchCandidate → List BranchCandidate
  | [] => [c]
  | d :: rest => if c.date ≤ d.date then c :: d :: rest else d :: insertByDate c rest

/-- Stable ascending sort by timestamp, the behavior of
`Array.prototype.sort` with the comparator `(a, b) => a.date - b.date`. -/
def sortByDate : List BranchCandidate → List BranchCandidate
  | [] => []
  | c :: rest => insertByDate c (sortByDate rest)

/-- `getLastMergedPrefix` as the source executes it.  Two JavaScript
truthiness effects are embedded faithfully: the cleanliness filter calls the
async `isBranchClean`, so its predicate value is a Promise object, which is
always truthy — the filter keeps every name and `isClean` is never
consulted; and the guard `if (!candidateBranches)` tests an array, which is
always truthy even when empty, so it never fires and an empty candidate list
reaches `candidateBranches[0].name`, an uncontrolled TypeError. -/
def getLastMergedPrefix (currentBranchName : String)
    (mergedBranchNames : List String) (isClean : String → Bool)
    (pushDate : String → Int) : CallOutcome String :=
  let afterCurrent := mergedBranchNames.filter (fun name => name != currentBranchName)
  let afterCleanFilter := afterCurrent.filter (fun _ => true)
  let candidateBranches :=
    sortByDate (afterCleanFilter.map (fun name => BranchCandidate.mk name (pushDate name)))
  match candidateBranches with
  | [] => .typeError
  | winner :: _ =>
      let splitName := jsSplit '/' winner.name
      if splitName.length > 1 then .ok (splitName.headD "")
      else .exception "Could not extract prefix from last merged branch"

/-- Modelled from the spec: the prefix selection as section 4.1 describes
it — candidates are the merged branches other than the current one whose
diff against HEAD is empty, sorted ascending by reflog push timestamp, and
an empty candidate set takes the fatal reporter path with its documented
message.  Stated for comparison with the embedding of the source above. -/
def getLastMergedPrefixSpec (currentBranchName : String)
    (mergedBranchNames : List String) (isClean : String → Bool)
    (pushDate : String → Int) : CallOutcome String :=
  let candidates :=
    sortByDate
      (((mergedBranchNames.filter (fun name => name != currentBranchName)).filter
          isClean).map (fun name => BranchCandidate.mk name (pushDate name)))
  match candidates with
  | [] => .exception "Could not find a suitable merged branch candidate"
  | winner :: _ =>
      let splitName := jsSplit '/' winner.name
      if splitName.length > 1 then .ok (splitName.headD "")
      else .exception "Could not extract prefix from last merged branch"

/-! ### The JSON file updater

Modelled from the spec and the published behavior of the `edit-json-file`
dependency, which the updater source drives through `fileChanger(path).get`,
`.set` and `.save`:

* `get(path)` reads a dot separated key path out of the parsed JSON data,
  giving `undefined` when the path is absent;
* `set(path, value)` assigns along a dot separated key path, creating empty
  object intermediates (the `set-value` behavior); when the first argument is
  itself an object, its entries are iterated and each entry key is used as a
  path with the entry value; a number or boolean path leaves the data
  unchanged;
* `save()` writes `JSON.stringify` of the data, which drops every property
  whose value is `undefined`.

The updater source calls `openedFile.set(value)` with a single argument, so
the library receives the previously read VALUE as the key path and
`undefined` as the value to store.

JSON values are embedded with object fields fused into the value type
(`objNil` / `objCons`) so that every operation is structurally recursive and
evaluates inside the kernel; arrays do not occur in any modelled scenario and
are omitted. -/

inductive JSValue where
  | undefined
  | null
  | bool (b : Bool)
  | num (n : Int)
  | str (s : String)
  | objNil
  | objCons (key : String) (value : JSValue) (rest : JSValue)
deriving DecidableEq, Repr

/-- JavaScript truthiness of a value. -/
def truthy : JSValue → Bool
  | .undefined => false
  | .null => false
  | .bool b => b
  | .num n => n != 0
  | .str s => s != ""
  | .objNil => true
  | .objCons _ _ _ => true

/-- Is the value an object. -/
def isObj : JSValue → Bool
  | .objNil => true
  | .objCons _ _ _ => true
  | _ => false

/-- Property lookup on an object; `undefined` when absent or when the value
is not an object. -/
def objGet : JSValue → String → JSValue
  | .objCons k v rest, key => if k = key then v else objGet rest key
  | _, _ => .undefined

/-- Property assignment on an object, replacing in place or appending; a non
object target is left unchanged (the `set-value` guard). -/
def objSet : JSValue → String → JSValue → JSValue
  | .objCons k w rest, key, v =>
      if k = key then .objCons k v rest else .objCons k w (objSet rest key v)
  | .objNil, key, v => .objCons key v .objNil
  | other, _, _ => other

/-- Walk a key path, as `find-value` does for `get`. -/
def pathGet : JSValue → List String → JSValue
  | v, [] => v
  | v, k :: rest => pathGet (objGet v k) rest

/-- Assign along a key path, as `set-value` does: the last segment receives
the value, earlier segments are traversed, replacing a non object
intermediate with a fresh empty object. -/
def setPath : JSValue → List String → JSValue → JSValue
  | data, [], _ => data
  | data, [k], v => objSet data k v
  | data, k1 :: k2 :: rest, v =>
      let child := objGet data k1
      objSet data k1 (setPath (if isObj child then child else .objNil) (k2 :: rest) v)

/-- `openedFile.get(key)`: dot split the key and walk the data. -/
def jsGet (data : JSValue) (path : String) : JSValue :=
  pathGet data (jsSplit '.' path)

/-- Iterate the entries of an object argument to `set`, assigning each entry
key (dot split) to the entry value. -/
def setEntries : JSValue → JSValue → JSValue
  | data, .objCons k v rest => setEntries (setPath data (jsSplit '.' k) v) rest
  | data, _ => data

/-- `openedFile.set(value)` with the single argument of the updater source:
a string argument is a dot separated key path assigned `undefined`; an
object argument has its entries iterated; any other argument leaves the data
unchanged. -/
def jsSet (data : JSValue) (pathValue : JSValue) : JSValue :=
  match pathValue with
  | .str s => setPath data (jsSplit '.' s) .undefined
  | .objCons k v rest => setEntries data (.objCons k v rest)
  | _ => data

/-- `JSON.stringify` on save: drop every property whose value is
`undefined`, recursively. -/
def stripUndefined : JSValue → JSValue
  | .objCons _ .undefined rest => stripUndefined rest
  | .objCons k v rest => .objCons k (stripUndefined v) (stripUndefined rest)
  | v => v

/-- A key of a file target; the source validates that every key is a
string, and the spec names a numeric key as the invalid example. -/
inductive JSKey where
  | str (s : String)
  | num (n : Int)
deriving DecidableEq, Repr

/-- `isKeyValid`: only string keys are valid. -/
def isKeyValid : JSKey → Bool
  | .str _ => true
  | .num _ => false

/-- Template literal rendering of a key inside a message. -/
def keyText : JSKey → String
  | .str s => s
  | .num n => toString n

/-- `defaultKeys` of the updater source. -/
def defaultKeys : List JSKey := [.str "version"]

/-- `handlerName` of the updater source. -/
def handlerName : String := "JSONFileChanger"

/-- Informational line for an unspecified key list. -/
def infoDefaultKeysMsg (url : String) : String :=
  "Keys for file " ++ url ++ " not specified. Using default keys instead."

/-- Warning line for one invalid key. -/
def infoInvalidKeyMsg (key : JSKey) : String :=
  "Key " ++ keyText key ++ " is not valid for " ++ handlerName ++ "."

/-- The single fatal message after the invalid key warnings. -/
def invalidKeysErrMsg : String :=
  "One or more keys are not valid for " ++ handlerName ++ "."

/-- Fatal message for a key whose read value is not truthy. -/
def missingKeyErrMsg (key : JSKey) (url : String) : String :=
  "Key " ++ keyText key ++ " for file " ++ url ++ " was not found."

/-- A configured file target: its relative path and its optional key list. -/
structure FileTarget where
  url : String
  keys : Option (List JSKey)

/-- Observable result of processing one file target: the fatal message when
the reporter threw, the informational lines printed, how many `set` calls
ran, whether `save` ran, and the content written to disk (after the
stringify normalization). -/
structure FileState where
  outcome : Option String
  infoLogs : List String
  setOps : Nat
  saved : Bool
  savedContent : Option JSValue
deriving DecidableEq, Repr

/-- The per key loop of the updater: read the key, and when the value is
truthy call `set` with that value as the single argument, otherwise throw the
missing key fatal; the error also reports how many `set` calls had already
run. -/
def runKeys (url : String) : List JSKey → JSValue → Nat →
    Except (String × Nat) (JSValue × Nat)
  | [], data, sets => .ok (data, sets)
  | key :: rest, data, sets =>
      let value := jsGet data (keyText key)
      if truthy value then runKeys url rest (jsSet data value) (sets + 1)
      else .error (missingKeyErrMsg key url, sets)

/-- Processing of one file target, the body of the `forEach` in
`updateFiles`: default the key list when absent or empty, validate key
types (one warning per invalid key, then a single fatal), then run the per
key loop and save. -/
def processFile (file : FileTarget) (data : JSValue) : FileState :=
  let usingDefaults :=
    match file.keys with
    | none => true
    | some [] => true
    | some _ => false
  let fileKeys :=
    match file.keys with
    | none => defaultKeys
    | some [] => defaultKeys
    | some ks => ks
  let defaultLogs := if usingDefaults then [infoDefaultKeysMsg file.url] else []
  let invalidKeys := fileKeys.filter (fun key => !(isKeyValid key))
  if invalidKeys.isEmpty then
    match runKeys file.url fileKeys data 0 with
    | .ok (finalData, sets) =>
        ⟨none, defaultLogs, sets, true, some (stripUndefined finalData)⟩
    | .error (msg, sets) => ⟨some msg, defaultLogs, sets, false, none⟩
  else
    ⟨some invalidKeysErrMsg, defaultLogs ++ invalidKeys.map infoInvalidKeyMsg,
      0, false, none⟩

/-- `updateFiles`: process each target in order; a fatal outcome terminates
the process, so later targets are never reached. -/
def updateFiles : List (FileTarget × JSValue) → List FileState
  | [] => []
  | (file, data) :: rest =>
      let st := processFile file data
      match st.outcome with
      | some _ => [st]
      | none => st :: updateFiles rest

/-- The file content of the C2 scenario. -/
def pkgData : JSValue := .objCons "version" (.str "1.0.0") .objNil

/-- What the C2 scenario actually saves: the version entry survives, but the
one argument `set` call used "1.0.0" as a key path and added spurious nested
entries. -/
def pkgSavedData : JSValue :=
  .objCons "version" (.str "1.0.0")
    (.objCons "1" (.objCons "0" .objNil .objNil) .objNil)

/-- The file content of the C6 counterexample: the value of key a is a dot
path that names key b. -/
def c6FileData : JSValue := .objCons "a" (.str "b.x") .objNil

/-- The file content of the C10 counterexample: key b is present with the
falsy empty string value, and the value of key a is a dot path that writes
under key b. -/
def c10FileData : JSValue :=
  .objCons "a" (.str "b.c") (.objCons "b" (.str "") .objNil)

/-! ### Helper lemmas -/

/-- Each iteration of the overwrite scan ignores the accumulator, so the
fold over the reversed lines is decided by the first original line. -/
theorem foldl_overwrite (f : String → Option String) (init : Option String)
    (a : String) (t : List String) :
    ((a :: t).reverse).foldl (fun _ line => f line) init = f a := by
  rw [List.reverse_cons, List.foldl_append]
  rfl

/-- Processing a single file target yields exactly its file state. -/
theorem updateFiles_singleton (file : FileTarget) (data : JSValue) :
    updateFiles [(file, data)] = [processFile file data] := by
  unfold updateFiles
  cases h : (processFile file data).outcome <;> simp [h, updateFiles]

/-- The per key loop on one truthy key performs the single argument `set`
call with the value just read. -/
theorem runKeys_single_truthy (url k : String) (data : JSValue)
    (h : truthy (jsGet data k) = true) :
    runKeys url [.str k] data 0 = .ok (jsSet data (jsGet data k), 1) := by
  simp only [runKeys, keyText]
  rw [h]
  rfl

/-- With the default key list and a truthy `version` value the target is
processed without failure and saved after one `set` call. -/
theorem processFile_default_truthy (url : String) (data : JSValue)
    (h : truthy (jsGet data "version") = true) :
    processFile ⟨url, none⟩ data =
      ⟨none, [infoDefaultKeysMsg url], 1, true,
        some (stripUndefined (jsSet data (jsGet data "version")))⟩ := by
  simp only [processFile, defaultKeys]
  rw [runKeys_single_truthy url "version" data h]
  simp [isKeyValid]

/-- A single key whose read value is not truthy takes the missing key fatal
path: no `set`, no `save`, nothing written. -/
theorem processFile_missing (url k : String) (data : JSValue)
    (h : truthy (jsGet data k) = false) :
    processFile ⟨url, some [.str k]⟩ data =
      ⟨some (missingKeyErrMsg (.str k) url), [], 0, false, none⟩ := by
  simp only [processFile, runKeys, keyText]
  rw [h]
  rfl

/-- Assigning `undefined` along a path whose first segment is not `version`
keeps the `version` entry in front with its value unchanged. -/
theorem setPath_keeps_version (v : String) (segs : List String)
    (h : segs.headD "" ≠ "version") :
    ∃ tail, setPath (.objCons "version" (.str v) .objNil) segs .undefined =
      .objCons "version" (.str v) tail := by
  match segs with
  | [] => exact ⟨.objNil, rfl⟩
  | [k] =>
      have hk : ¬ ("version" = k) := fun he => h (by simp [he.symm])
      exact ⟨.objCons k .undefined .objNil, by simp [setPath, objSet, hk]⟩
  | k1 :: k2 :: rest =>
      have hk : ¬ ("version" = k1) := fun he => h (by simp [he.symm])
      exact ⟨.objCons k1 (setPath .objNil (k2 :: rest) .undefined) .objNil,
        by simp [setPath, objSet, objGet, isObj, hk]⟩

/-! ### The claims -/

/-- C1: the selection does not restrict to clean candidate branches.  At a
concrete input where the non clean branch has the smaller reflog timestamp,
the source embedding returns its prefix "feature" — the cleanliness filter
is inoperative because its async predicate value, a Promise, is always
truthy — while the selection the spec describes (clean candidates only)
returns "fix". -/
theorem c1_clean_filter_inoperative :
    getLastMergedPrefix "master" ["feature/dirty", "fix/clean"]
        (fun name => name == "fix/clean")
        (fun name => if name == "feature/dirty" then 1 else 2) = .ok "feature" ∧
    getLastMergedPrefixSpec "master" ["feature/dirty", "fix/clean"]
        (fun name => name == "fix/clean")
        (fun name => if name == "feature/dirty" then 1 else 2) = .ok "fix" :=
  ⟨by decide, by decide⟩

/-- C5: when no candidate remains after excluding the current branch, the
guard `if (!candidateBranches)` never fires (an array is always truthy), so
the source reads `candidateBranches[0].name` of an empty array — an
uncontrolled TypeError, not the documented fatal message; the spec modelled
variant takes the documented fatal path.  The second half of the claim does
hold: a winning name without a slash takes the fatal prefix extraction
message. -/
theorem c5_empty_candidates_uncontrolled :
    getLastMergedPrefix "master" ["master"] (fun _ => true) (fun _ => 0) =
      CallOutcome.typeError ∧
    getLastMergedPrefixSpec "master" ["master"] (fun _ => true) (fun _ => 0) =
      .exception "Could not find a suitable merged branch candidate" ∧
    getLastMergedPrefix "master" ["topicbranch"] (fun _ => true) (fun _ => 0) =
      .exception "Could not extract prefix from last merged branch" :=
  ⟨rfl, rfl, rfl⟩

/-- C3: for every non empty list of subject lines, the scan over the
reversed lines overwrites the candidate at each step, so the returned value
is exactly the overwrite rule applied to the first original line. -/
theorem c3_reverse_scan_overwrite (lines : List String) (err : Option String)
    (h : lines ≠ []) :
    getCommitSubjectVersion (some lines) err = .ok (subjectStep (lines.headD "")) := by
  cases lines with
  | nil => exact absurd rfl h
  | cons a t =>
      show CallOutcome.ok ((a :: t).reverse.foldl (fun _ line => subjectStep line) none) = _
      rw [foldl_overwrite]
      rfl

/-- C3 witness: at the documented input the first original line "feat: x"
does not clean to a valid semver, so the scan returns null. -/
theorem c3_reverse_scan_overwrite_witness :
    (["feat: x", "1.2.3", "not-a-version"] ≠ ([] : List String)) ∧
    getCommitSubjectVersion (some ["feat: x", "1.2.3", "not-a-version"]) none = .ok none := by
  refine ⟨by decide, ?_⟩
  rw [c3_reverse_scan_overwrite ["feat: x", "1.2.3", "not-a-version"] none (by decide)]
  decide

/-- C4 counterexample: a malformed tag name does not take the fatal error
path — `semver.clean` returns null and the operation returns it as a value. -/
theorem c4_malformed_tag_no_failure :
    getLastTagVersion (some ["not-a-tag"]) none = .ok none ∧
    (getLastTagVersion (some ["not-a-tag"]) none).isException = false :=
  ⟨by decide, by decide⟩

/-- C4 (amended): with captured describe output the operation returns
`semver.clean` of the first line — the normalized version for a well formed
tag and null for a malformed one — and it takes the fatal error path exactly
when the describe probe yields no output (no tag). -/
theorem c4_tag_version (l : String) (ls : List String) (e : Option String) :
    getLastTagVersion (some (l :: ls)) e = .ok (semverClean l) ∧
    getLastTagVersion none e = .exception "Could not get last tag" :=
  ⟨rfl, rfl⟩

/-- C8: the cleanliness probe resolves true exactly on an empty capture with
no error, and any dirty output or probe error takes the fatal path. -/
theorem c8_cleanliness (dirty : Option (List String)) (err : Option String) :
    (checkCleanliness dirty err = .ok true ↔ (dirty = none ∧ err = none)) ∧
    ((dirty ≠ none ∨ err ≠ none) → (checkCleanliness dirty err).isException = true) := by
  cases err <;> cases dirty <;> simp [checkCleanliness, CallOutcome.isException]

/-- C8 witness: a clean tree resolves true; dirty output is fatal. -/
theorem c8_cleanliness_witness :
    checkCleanliness none none = .ok true ∧
    (checkCleanliness (some ["dirty"]) none).isException = true :=
  ⟨(c8_cleanliness none none).1.mpr ⟨rfl, rfl⟩,
   (c8_cleanliness (some ["dirty"]) none).2 (Or.inl (by decide))⟩

/-- C9: membership in the configured allow list returns true, and a branch
outside the list takes the reporter soft exit, not the fatal path. -/
theorem c9_branch_allow_list (branches : List String) (current : String) :
    (checkBranchInConfig branches current = .ok true ↔ current ∈ branches) ∧
    (current ∉ branches →
      checkBranchInConfig branches current =
        .softExit "Current branch is not included in config file" "Skipping...") := by
  by_cases hm : current ∈ branches
  · constructor
    · simp [checkBranchInConfig, List.contains, hm]
    · exact fun hn => absurd hm hn
  · constructor
    · simp [checkBranchInConfig, List.contains, hm]
    · intro _
      simp [checkBranchInConfig, List.contains, hm]

/-- C9 witness: the configured branch passes; another branch soft exits. -/
theorem c9_branch_allow_list_witness :
    checkBranchInConfig ["master"] "master" = .ok true ∧
    checkBranchInConfig ["master"] "develop" =
      .softExit "Current branch is not included in config file" "Skipping..." :=
  ⟨(c9_branch_allow_list ["master"] "master").1.mpr (by decide),
   (c9_branch_allow_list ["master"] "develop").2 (by decide)⟩

/-- C2 counterexample: on the documented input the update completes and the
`version` entry survives, but the saved content is NOT the original
content — the one argument `set` call used the value "1.0.0" as a dot
separated key path and the saved file gained the spurious nested entries
under the new key "1". -/
theorem c2_not_noop_counterexample :
    updateFiles [(⟨"package.json", none⟩, pkgData)] =
      [⟨none, [infoDefaultKeysMsg "package.json"], 1, true, some pkgSavedData⟩] ∧
    pkgSavedData ≠ pkgData :=
  ⟨rfl, by decide⟩

/-- C2 (amended): with default keys and a file whose `version` value is a
non empty string whose first dot segment is not `version`, the update
completes without failure, saves, and the saved content still maps
`version` to the same value — though the saved content is in general not
identical to the original. -/
theorem c2_version_preserved (url v : String) (hv : v ≠ "")
    (hseg : (jsSplit '.' v).headD "" ≠ "version") :
    ∃ content,
      updateFiles [(⟨url, none⟩, .objCons "version" (.str v) .objNil)] =
        [⟨none, [infoDefaultKeysMsg url], 1, true, some content⟩] ∧
      objGet content "version" = .str v := by
  obtain ⟨tail, htail⟩ := setPath_keeps_version v (jsSplit '.' v) hseg
  have ht : truthy (jsGet (JSValue.objCons "version" (.str v) .objNil) "version") = true := by
    show (v != "") = true
    simpa using hv
  refine ⟨.objCons "version" (.str v) (stripUndefined tail), ?_, ?_⟩
  · rw [updateFiles_singleton, processFile_default_truthy url _ ht]
    have hjs : jsSet (JSValue.objCons "version" (.str v) .objNil)
        (jsGet (JSValue.objCons "version" (.str v) .objNil) "version") =
        JSValue.objCons "version" (.str v) tail := htail
    rw [hjs]
    rfl
  · rfl

/-- C2 witness: the amended statement at the documented input. -/
theorem c2_version_preserved_witness :
    ∃ content,
      updateFiles [(⟨"package.json", none⟩,
          JSValue.objCons "version" (.str "1.0.0") .objNil)] =
        [⟨none, [infoDefaultKeysMsg "package.json"], 1, true, some content⟩] ∧
      objGet content "version" = .str "1.0.0" :=
  c2_version_preserved "package.json" "1.0.0" (by decide) (by decide)

/-- C6 counterexample: with keys ["a", "b"] and the file content mapping a
to the string "b.x", key b is not present in the file, yet the update
completes without any fatal error and saves — processing key a passed its
value "b.x" to `set` as a key path, creating key b before it was read. -/
theorem c6_missing_key_counterexample :
    jsGet c6FileData "b" = .undefined ∧
    updateFiles [(⟨"data.json", some [.str "a", .str "b"]⟩, c6FileData)] =
      [⟨none, [], 2, true,
        some (.objCons "a" (.str "b.x") (.objCons "b" .objNil .objNil))⟩] :=
  ⟨rfl, rfl⟩

/-- C6 (amended): when the key list is exactly one string key that is not
present in the file, the update fails fatally with the message naming that
key and the file path, performs no `set`, and never reaches `save`, leaving
the on disk content untouched. -/
theorem c6_missing_key_fatal (url k : String) (data : JSValue)
    (h : jsGet data k = .undefined) :
    updateFiles [(⟨url, some [.str k]⟩, data)] =
      [⟨some (missingKeyErrMsg (.str k) url), [], 0, false, none⟩] := by
  rw [updateFiles_singleton, processFile_missing url k data (by rw [h]; rfl)]

/-- C6 witness: keys ["versn"] against a file holding only `version`. -/
theorem c6_missing_key_fatal_witness :
    updateFiles [(⟨"package.json", some [.str "versn"]⟩, pkgData)] =
      [⟨some (missingKeyErrMsg (.str "versn") "package.json"), [], 0, false, none⟩] :=
  c6_missing_key_fatal "package.json" "versn" pkgData (by decide)

/-- C7: a key list holding at least one non string key produces exactly one
warning line per invalid key, then the single fatal batch message, with
zero `set` calls and no `save` for that file. -/
theorem c7_invalid_keys_fatal (url : String) (ks : List JSKey) (data : JSValue)
    (h : ks.filter (fun key => !(isKeyValid key)) ≠ []) :
    updateFiles [(⟨url, some ks⟩, data)] =
      [⟨some invalidKeysErrMsg,
        (ks.filter (fun key => !(isKeyValid key))).map infoInvalidKeyMsg,
        0, false, none⟩] ∧
    ((ks.filter (fun key => !(isKeyValid key))).map infoInvalidKeyMsg).length =
      (ks.filter (fun key => !(isKeyValid key))).length := by
  refine ⟨?_, by simp⟩
  rw [updateFiles_singleton]
  cases ks with
  | nil => exact absurd rfl h
  | cons a t =>
      have hie : ((a :: t).filter (fun key => !(isKeyValid key))).isEmpty = false := by
        cases hf : (a :: t).filter (fun key => !(isKeyValid key)) with
        | nil => exact absurd hf h
        | cons b u => rfl
      simp only [processFile]
      simp [hie]

/-- C7 witness: the numeric key 5 yields its one warning line and the
single fatal batch message, with nothing written. -/
theorem c7_invalid_keys_fatal_witness :
    updateFiles [(⟨"package.json", some [JSKey.num 5]⟩, pkgData)] =
      [⟨some invalidKeysErrMsg, [infoInvalidKeyMsg (.num 5)], 0, false, none⟩] :=
  ((c7_invalid_keys_fatal "package.json" [.num 5] pkgData (by decide)).1).trans (by rfl)

/-- C10 counterexample: the falsy path is not taken for every file target.
With keys ["a", "b"] and the file mapping a to the string "b.c" and b to
the falsy empty string, processing key a passes "b.c" to the one argument
`set` as a key path, overwriting the falsy value at b with a truthy object
before b is read — so the run takes the rewrite path for both keys,
completes without any fatal error, and saves.  -/
theorem c10_falsy_value_counterexample :
    jsGet c10FileData "b" = .str "" ∧
    truthy (JSValue.str "") = false ∧
    updateFiles [(⟨"data.json", some [.str "a", .str "b"]⟩, c10FileData)] =
      [⟨none, [], 2, true,
        some (.objCons "a" (.str "b.c") (.objCons "b" .objNil .objNil))⟩] :=
  ⟨rfl, rfl, rfl⟩

/-- C10 (amended): when the key list is exactly one string key whose read
value is present but falsy (empty string, zero, false, or null), the update
takes exactly the missing key fatal path — presence is decided by
truthiness of the read value, not key existence — with no `set` and no
`save`. -/
theorem c10_falsy_value_missing (url k : String) (v data : JSValue)
    (hpresent : jsGet data k = v) (hfalsy : truthy v = false) :
    updateFiles [(⟨url, some [.str k]⟩, data)] =
      [⟨some (missingKeyErrMsg (.str k) url), [], 0, false, none⟩] := by
  rw [updateFiles_singleton,
    processFile_missing url k data (by rw [hpresent]; exact hfalsy)]

/-- C10 witness: the key `version` is present with the empty string value,
and the update takes the missing key fatal path. -/
theorem c10_falsy_value_missing_witness :
    updateFiles [(⟨"package.json", some [.str "version"]⟩,
        JSValue.objCons "version" (.str "") .objNil)] =
      [⟨some (missingKeyErrMsg (.str "version") "package.json"), [], 0, false, none⟩] :=
  c10_falsy_value_missing "package.json" "version" (.str "")
    (.objCons "version" (.str "") .objNil) (by decide) (by decide)
